import Mathlib

/-!
Shallow embedding of the asktop/dbr batched case-update statement builder
(`CaseUpdateStmt`) and of the cached execution engine (`exec` / `query`),
translated from the Go source, together with theorems settling the spec's
claims about them.

Conventions:
* Go `int`/`int64` are `Int`; list indices are `Nat`.
* Go panics (out-of-range index, negative slice bound) are modelled as an
  explicit `crash`/`none` outcome, distinct from returned errors.
* External effects (driver round trips, cache round trips, the gob codec,
  reflection on the destination) are supplied as an environment recording
  the outcome of each effect, so the control flow of the Go functions can
  be reproduced as a pure function of that environment.
-/

/-- A Go `interface{}` value as this code binds them: the builder and its
test only ever pass ints and strings. -/
inductive GoVal where
  | vint (n : Int)
  | vstr (s : String)
deriving DecidableEq

/-- Model of `fmt.Sprint` on the two value shapes above. -/
def sprint : GoVal → String
  | .vint n => toString n
  | .vstr s => s

/-- Go struct `CaseUpdateValue`: one accumulated row — the primary-key value (already
rendered by `fmt.Sprint`) plus the ordered per-column values. -/
structure CaseUpdateValue where
  Key : String
  Val : List GoVal
deriving DecidableEq

/-- Go struct `CaseUpdateStmt`, restricted to the fields `Build` and `Exec` read.
The embedded runner / EventReceiver / Dialect handles and the
postgres-only `ReturnColumn` field carry no logic in the source. -/
structure CaseUpdateStmt where
  Table : String
  PKey : String
  RunLen : Int
  Column : List String
  Value : List CaseUpdateValue
deriving DecidableEq

/-- The one Dialect capability `Build` uses: identifier quoting. -/
structure Dialect where
  quoteIdent : String → String

/-- A test dialect quoting identifiers verbatim. -/
def plainDialect : Dialect := ⟨fun s => s⟩

/-- The error values the embedded functions can return. -/
inductive DbrError where
  | tableNotSpecified
  | columnNotSpecified
  | interpolationFailed
  | missingCacheKey
  | invalidPointer
  | executionFailed
  | loadFailed
deriving DecidableEq

/-- Outcome of `CaseUpdateStmt.Build`: `crash` models a Go panic, `err` a
returned error, and `ok` carries the SQL text, the bound values in write
order, and the statement as mutated by the build (batch size defaulted,
consumed window removed from `Value`). -/
inductive BuildResult where
  | crash
  | err (e : DbrError)
  | ok (sql : String) (vals : List GoVal) (next : CaseUpdateStmt)
deriving DecidableEq

/-- The `if b.RunLen == 0 { b.RunLen = 1000 }` defaulting at the top of
`Build`. -/
def effRunLen (r : Int) : Int :=
  if r = 0 then 1000 else r

/-- The row window the WHEN and WHERE loops cover: both loops break at
index `x` once `x >= b.RunLen && b.RunLen > 0`. -/
def window (k : Int) (rows : List CaseUpdateValue) : List CaseUpdateValue :=
  if 0 < k then rows.take k.toNat else rows

/-- Last character of a column name, `none` on the empty string: Go's
`col[len(col)-1]` panics exactly when this is `none`. -/
def strLast (s : String) : Option Char :=
  s.data.getLast?

/-- The column name with its final character removed, Go's
`col[0 : len(col)-1]` (the stripped character is a single byte here). -/
def strInit (s : String) : String :=
  ⟨s.data.dropLast⟩

/-- The run of `WHEN ? THEN ?` fragments one column's CASE expression
makes over the window: per row the literal text plus the bound values
`v.Key` and `v.Val[i]`. `none` models the Go out-of-range panic when a
row has no value at column index `i`. -/
def whenParts (i : Nat) : List CaseUpdateValue → Option (String × List GoVal)
  | [] => some ("", [])
  | v :: rest =>
    match v.Val.get? i with
    | none => none
    | some x =>
      match whenParts i rest with
      | none => none
      | some (s, vs) => some (" WHEN ? THEN ? " ++ s, .vstr v.Key :: x :: vs)

/-- The `SET` fragment `Build` writes for the column `col` at index `i`
(without the leading `", "` separator): a trailing `+`/`-` is stripped
from the identifier and re-emitted as `col = col <op> CASE ... END`,
otherwise `col = CASE ... END`. `none` models the panic on an empty
column name or a too-short value row. -/
def colSegment (d : Dialect) (pkey : String) (win : List CaseUpdateValue)
    (i : Nat) (col : String) : Option (String × List GoVal) :=
  match strLast col with
  | none => none
  | some last =>
    let head :=
      if last = '+' ∨ last = '-' then
        d.quoteIdent (strInit col) ++ " = " ++ d.quoteIdent (strInit col)
          ++ (" " ++ String.singleton last ++ " ")
      else
        d.quoteIdent col ++ " = "
    match whenParts i win with
    | none => none
    | some (w, vs) =>
      some (head ++ " CASE " ++ d.quoteIdent pkey ++ w ++ " END ", vs)

/-- The full `SET` list: `Build` loops the columns, separating with
`", "` from the second column on. -/
def setClause (d : Dialect) (pkey : String) (win : List CaseUpdateValue) :
    Nat → List String → Option (String × List GoVal)
  | _, [] => some ("", [])
  | i, col :: rest =>
    match colSegment d pkey win i col with
    | none => none
    | some (s, vs) =>
      match setClause d pkey win (i + 1) rest with
      | none => none
      | some (s', vs') =>
        some ((if 0 < i then ", " else "") ++ s ++ s', vs ++ vs')

/-- Field `b.Value` after the consumed window is removed:
`if len(b.Value) > b.RunLen && b.RunLen != 0` the source keeps
`b.Value[b.RunLen:]`, else clears the list. `none` models the panic of
that slice expression when `RunLen` is negative. -/
def nextRows (k : Int) (rows : List CaseUpdateValue) : Option (List CaseUpdateValue) :=
  if (rows.length : Int) > k ∧ k ≠ 0 then
    if k < 0 then none else some (rows.drop k.toNat)
  else some []

/-- The `?` placeholder list of `WHERE pk IN ( ... )` over the window's
keys, with the keys as bound values. -/
def whereList : Nat → List String → String × List GoVal
  | _, [] => ("", [])
  | i, key :: rest =>
    let (s, vs) := whereList (i + 1) rest
    ((if 0 < i then ", " else "") ++ " ? " ++ s, .vstr key :: vs)

/-- Method `CaseUpdateStmt.Build`, following the source statement by statement:
default the batch size, validate table and columns, write one CASE
fragment per column over the window, collect the window's keys, slice
the consumed window off `Value`, then write the WHERE clause. -/
def CaseUpdateStmt.Build (b : CaseUpdateStmt) (d : Dialect) : BuildResult :=
  let k := effRunLen b.RunLen
  let b := { b with RunLen := k }
  if b.Table = "" then .err .tableNotSpecified
  else if b.Column = [] then .err .columnNotSpecified
  else
    let win := window k b.Value
    match setClause d b.PKey win 0 b.Column with
    | none => .crash
    | some (setSql, setVals) =>
      let whereKeys := win.map CaseUpdateValue.Key
      match nextRows k b.Value with
      | none => .crash
      | some rest =>
        let (whereSql, whereVals) := whereList 0 whereKeys
        .ok ("UPDATE " ++ d.quoteIdent b.Table ++ " SET " ++ setSql
              ++ " WHERE " ++ d.quoteIdent b.PKey ++ " IN (" ++ whereSql ++ " )")
          (setVals ++ whereVals)
          { b with Value := rest }

/-- Constructor `CaseUpdate(table)`. -/
def CaseUpdate (table : String) : CaseUpdateStmt :=
  { Table := table, PKey := "", RunLen := 0, Column := [], Value := [] }

/-- Method `Columns(PKey, column...)`. -/
def CaseUpdateStmt.Columns (b : CaseUpdateStmt) (pkey : String)
    (column : List String) : CaseUpdateStmt :=
  { b with PKey := pkey, Column := column }

/-- Method `Values(PKValue, value...)`: the source overwrites the values of every
already accumulated entry whose rendered key matches, and then appends a
fresh entry unconditionally. -/
def CaseUpdateStmt.Values (b : CaseUpdateStmt) (pkValue : GoVal)
    (value : List GoVal) : CaseUpdateStmt :=
  let pk := sprint pkValue
  let updated := b.Value.map fun v => if v.Key = pk then { v with Val := value } else v
  { b with Value := updated ++ [{ Key := sprint pkValue, Val := value }] }

/-- Method `SetRunLen(i)`. -/
def CaseUpdateStmt.SetRunLen (b : CaseUpdateStmt) (i : Int) : CaseUpdateStmt :=
  { b with RunLen := i }

/-- How one `Exec` run stopped early, if it did. -/
inductive ExecStop where
  | buildCrash
  | buildErr (e : DbrError)
  | driverErr
deriving DecidableEq

/-- Method `CaseUpdateStmt.Exec`: the source loops
`for len(b.Value) > 0 && err == nil { _, err = b.ExecContext(...) }`,
where each `ExecContext` interpolates the statement — running `Build`,
which consumes one window of `Value` — and then calls the driver. The
driver's per-cycle outcome is supplied by the `driver` oracle; `n`
counts completed cycles. The result is the cycle count, the rows left on
the statement, and the reason the loop stopped (`none` = drained). -/
def CaseUpdateStmt.Exec (b : CaseUpdateStmt) (d : Dialect) (driver : Nat → Bool)
    (n : Nat) : Nat × List CaseUpdateValue × Option ExecStop :=
  if hne : b.Value = [] then (n, [], none)
  else
    match h : b.Build d with
    | .crash => (n + 1, b.Value, some .buildCrash)
    | .err e => (n + 1, b.Value, some (.buildErr e))
    | .ok _ _ b' =>
      if driver n then b'.Exec d driver (n + 1)
      else (n + 1, b'.Value, some .driverErr)
termination_by b.Value.length
decreasing_by
  unfold CaseUpdateStmt.Build at h
  simp only at h
  split at h
  · exact absurd h (by simp)
  · split at h
    · exact absurd h (by simp)
    · split at h
      · exact absurd h (by simp)
      · split at h
        · exact absurd h (by simp)
        · rename_i rest hrest
          injection h with h1 h2 h3
          subst h3
          unfold nextRows at hrest
          split at hrest
          · split at hrest
            · exact absurd hrest (by simp)
            · injection hrest with hr
              subst hr
              simp only [List.length_drop]
              rename_i hgt hnotneg
              have hlen : b.Value.length ≠ 0 := by
                intro hz; exact hne (List.eq_nil_of_length_eq_zero hz)
              omega
          · injection hrest with hr
            subst hr
            simp only [List.length_nil]
            have hlen : b.Value.length ≠ 0 := by
              intro hz; exact hne (List.eq_nil_of_length_eq_zero hz)
            omega

/-- Opaque byte blob, standing for gob-encoded payloads. -/
abbrev Bytes := List Nat

/-- Go struct `Custom`: the per-call cache/count directive. The cache object it
carries is represented by the environment of the call instead. -/
structure Custom where
  isCount : Bool
  isCache : Bool
  cacheKey : String
  cacheExpire : Int
deriving DecidableEq

/-- What the cache's `GetBytes` answered: a backend error, a miss, or a
hit carrying the stored bytes. -/
inductive CacheGetReply where
  | backendErr
  | miss
  | hit (bs : Bytes)

/-- Environment of one `query` call: the outcome of every external effect
it may perform — interpolation of the builder, the cache read, the gob
decoder on the cached bytes (as an integer count, or into the caller's
destination), the reflection inspection of the destination, the two
driver paths (count query, row query + `Load`), the gob encoder, and the
cache store. -/
structure QueryEnv where
  interp : Except Unit String
  cacheGet : CacheGetReply
  decodeCount : Bytes → Option Int
  decodeDestOk : Bytes → Bool
  destValidPtr : Bool
  destSliceLen : Option Nat
  dbCount : Except Unit Int
  dbLoad : Except Unit Int
  encodeCount : Int → Option Bytes
  encodeDest : Option Bytes

/-- Observable outcome of one `query` call: the returned count or error,
whether `GetBytes` was called, the SQL handed to the driver (if any), and
the store attempted on the cache (key, bytes, TTL), if any. The outcome
of the store itself is logged only and alters nothing here. -/
structure QueryOutcome where
  result : Except DbrError Int
  cacheRead : Bool
  dbQuery : Option String
  cacheWrite : Option (String × Bytes × Int)

/-- The count-wrapping `fmt.Sprintf("SELECT COUNT(*) FROM (%s) AS count", query)`. -/
def countWrap (sql : String) : String :=
  "SELECT COUNT(*) FROM (" ++ sql ++ ") AS count"

/-- The lower half of `query`: the real database round trip — `queryCount`
when a row count is wanted, otherwise `queryRows` + `Load` — followed by
the gob encoding and the cache store when caching is on. `readAttempted`
records whether the upper half already called `GetBytes`. -/
def queryDb (env : QueryEnv) (c : Custom) (readAttempted : Bool) : QueryOutcome :=
  if c.isCount then
    match env.interp with
    | .error _ => ⟨.error .interpolationFailed, readAttempted, none, none⟩
    | .ok sql =>
      match env.dbCount with
      | .error _ => ⟨.error .executionFailed, readAttempted, some (countWrap sql), none⟩
      | .ok cnt =>
        let wr := if c.isCache then
            (env.encodeCount cnt).map (fun bs => (c.cacheKey, bs, c.cacheExpire))
          else none
        ⟨.ok cnt, readAttempted, some (countWrap sql), wr⟩
  else
    match env.interp with
    | .error _ => ⟨.error .interpolationFailed, readAttempted, none, none⟩
    | .ok sql =>
      match env.dbLoad with
      | .error _ => ⟨.error .loadFailed, readAttempted, some sql, none⟩
      | .ok cnt =>
        let wr := if c.isCache then
            env.encodeDest.map (fun bs => (c.cacheKey, bs, c.cacheExpire))
          else none
        ⟨.ok cnt, readAttempted, some sql, wr⟩

/-- Function `query`: with caching on it renders the SQL (failure returned), fails
hard on an empty cache key, then tries the cache: a backend error or a
decode failure is logged and falls through to the database path; a
decoded hit returns immediately with no driver call. With caching off it
goes straight to the database path. -/
def query (env : QueryEnv) (c : Custom) : QueryOutcome :=
  if c.isCache then
    match env.interp with
    | .error _ => ⟨.error .interpolationFailed, false, none, none⟩
    | .ok _ =>
      if c.cacheKey = "" then ⟨.error .missingCacheKey, false, none, none⟩
      else
        match env.cacheGet with
        | .backendErr => queryDb env c true
        | .miss => queryDb env c true
        | .hit bs =>
          if c.isCount then
            match env.decodeCount bs with
            | none => queryDb env c true
            | some cnt => ⟨.ok cnt, true, none, none⟩
          else
            if env.decodeDestOk bs then
              if env.destValidPtr then
                ⟨.ok (match env.destSliceLen with | some n => (n : Int) | none => 1),
                  true, none, none⟩
              else ⟨.error .invalidPointer, true, none, none⟩
            else queryDb env c true
  else queryDb env c false

/-- Environment of one `exec` call: interpolation, the driver execution
(its success value standing for the opaque `sql.Result`), and the cache
key deletion. -/
structure ExecEnv where
  interp : Except Unit String
  dbExec : Except Unit Int
  cacheDel : Except Unit Unit

/-- Observable outcome of one `exec` call: the returned result or error,
and the cache key whose deletion was attempted, if any. -/
structure ExecOutcome where
  result : Except DbrError Int
  cacheDel : Option String

/-- Function `exec`: interpolate, run the driver; on driver success, when the
directive is enabled with a non-empty key, delete that cache key — the
deletion's outcome (`env.cacheDel`) is only logged, and the source then
returns `result, nil` unconditionally. -/
def exec (env : ExecEnv) (c : Custom) : ExecOutcome :=
  match env.interp with
  | .error _ => ⟨.error .interpolationFailed, none⟩
  | .ok _ =>
    match env.dbExec with
    | .error _ => ⟨.error .executionFailed, none⟩
    | .ok r =>
      if c.isCache then
        if c.cacheKey = "" then ⟨.ok r, none⟩
        else ⟨.ok r, some c.cacheKey⟩
      else ⟨.ok r, none⟩

/-- The remaining rows a successful `Build` leaves on the statement. -/
def BuildResult.rest : BuildResult → Option (List CaseUpdateValue)
  | .ok _ _ b => some b.Value
  | _ => none

/-- A well-formed `CaseUpdateStmt` as the builder API produces one: a
table, at least one non-empty column name, and every accumulated row
carrying at least one value per column. -/
def ValidStmt (b : CaseUpdateStmt) : Prop :=
  b.Table ≠ "" ∧ b.Column ≠ [] ∧ (∀ c ∈ b.Column, c ≠ "") ∧
    ∀ v ∈ b.Value, b.Column.length ≤ v.Val.length

/-- A concrete `query` environment used by the witnesses: a healthy
database (count 7, three loaded rows) behind a cache whose `GetBytes`
reports a backend error. -/
def envA : QueryEnv :=
  { interp := .ok "SELECT a FROM t"
    cacheGet := .backendErr
    decodeCount := fun _ => none
    decodeDestOk := fun _ => false
    destValidPtr := true
    destSliceLen := none
    dbCount := .ok 7
    dbLoad := .ok 3
    encodeCount := fun n => some [n.toNat]
    encodeDest := some [0] }

/-- A concrete cache-enabled, row-count directive. -/
def customCount : Custom :=
  { isCount := true, isCache := true, cacheKey := "k", cacheExpire := 60 }

/-- A concrete `exec` environment: interpolation and the driver succeed,
the cache key deletion fails. -/
def envE : ExecEnv :=
  { interp := .ok "UPDATE t", dbExec := .ok 1, cacheDel := .error () }

/-- A statement probing whether `RunLen = 0` really means one unbounded
window: 1001 identical single-column rows. -/
def unboundedProbe : CaseUpdateStmt :=
  { Table := "t", PKey := "id", RunLen := 0, Column := ["a"],
    Value := List.replicate 1001 ⟨"k", [.vstr "v"]⟩ }

/-! ### Helper lemmas about `Build` -/

theorem effRunLen_of_ne_zero {r : Int} (h : r ≠ 0) : effRunLen r = r := by
  unfold effRunLen
  exact if_neg h

theorem whenParts_isSome {i : Nat} : ∀ {l : List CaseUpdateValue},
    (∀ v ∈ l, i < v.Val.length) → ∃ p, whenParts i l = some p
  | [], _ => ⟨("", []), rfl⟩
  | v :: rest, h => by
    have hv : i < v.Val.length := h v (List.mem_cons_self v rest)
    obtain ⟨⟨s, vs⟩, hp⟩ :=
      @whenParts_isSome i rest fun u hu => h u (List.mem_cons_of_mem v hu)
    refine ⟨(" WHEN ? THEN ? " ++ s, .vstr v.Key :: v.Val.get ⟨i, hv⟩ :: vs), ?_⟩
    unfold whenParts
    rw [List.get?_eq_get hv, hp]

theorem strLast_isSome {s : String} (h : s ≠ "") : ∃ c, strLast s = some c := by
  have hd : s.data ≠ [] := by
    intro hd; exact h (by cases s; simp_all)
  exact ⟨s.data.getLast hd, List.getLast?_eq_getLast s.data hd⟩

theorem colSegment_isSome {d : Dialect} {pkey : String} {win : List CaseUpdateValue}
    {i : Nat} {col : String} (hcol : col ≠ "")
    (hwin : ∀ v ∈ win, i < v.Val.length) :
    ∃ p, colSegment d pkey win i col = some p := by
  obtain ⟨c, hc⟩ := strLast_isSome hcol
  obtain ⟨⟨w, vs⟩, hw⟩ := whenParts_isSome hwin
  unfold colSegment
  rw [hc, hw]
  exact ⟨_, rfl⟩

theorem setClause_isSome {d : Dialect} {pkey : String} {win : List CaseUpdateValue} :
    ∀ (cols : List String) (i : Nat), (∀ c ∈ cols, c ≠ "") →
    (∀ v ∈ win, i + cols.length ≤ v.Val.length) →
    ∃ p, setClause d pkey win i cols = some p
  | [], _, _, _ => ⟨("", []), rfl⟩
  | col :: rest, i, hcols, hwin => by
    obtain ⟨⟨s, vs⟩, hseg⟩ := colSegment_isSome (i := i)
      (hcols col (List.mem_cons_self col rest))
      (fun v hv => by have := hwin v hv; simp at this; omega)
    obtain ⟨⟨s2, vs2⟩, hrest⟩ := setClause_isSome rest (i + 1)
      (fun c hc => hcols c (List.mem_cons_of_mem col hc))
      (fun v hv => by have := hwin v hv; simp at this ⊢; omega)
    refine ⟨((if 0 < i then ", " else "") ++ s ++ s2, vs ++ vs2), ?_⟩
    unfold setClause
    rw [hseg, hrest]

theorem build_ok_of_valid (d : Dialect) (b : CaseUpdateStmt) (hv : ValidStmt b)
    (hpos : 0 < effRunLen b.RunLen) :
    ∃ sql vals, b.Build d = .ok sql vals
      { b with RunLen := effRunLen b.RunLen,
               Value := if (b.Value.length : Int) > effRunLen b.RunLen
                        then b.Value.drop (effRunLen b.RunLen).toNat else [] } := by
  obtain ⟨hT, hC, hcols, hvals⟩ := hv
  have hwin : ∀ v ∈ window (effRunLen b.RunLen) b.Value,
      0 + b.Column.length ≤ v.Val.length := by
    intro v hvmem
    have hmem : v ∈ b.Value := by
      unfold window at hvmem
      rw [if_pos hpos] at hvmem
      exact (List.take_subset _ _) hvmem
    simpa using hvals v hmem
  have hsome : ∃ p, setClause d b.PKey (window (effRunLen b.RunLen) b.Value)
      0 b.Column = some p := setClause_isSome b.Column 0 hcols hwin
  obtain ⟨⟨s, vs⟩, hset⟩ := hsome
  have hnext : nextRows (effRunLen b.RunLen) b.Value =
      some (if (b.Value.length : Int) > effRunLen b.RunLen
            then b.Value.drop (effRunLen b.RunLen).toNat else []) := by
    unfold nextRows
    by_cases hgt : (b.Value.length : Int) > effRunLen b.RunLen
    · rw [if_pos ⟨hgt, by omega⟩, if_neg (by omega), if_pos hgt]
    · rw [if_neg (fun hand => hgt hand.1), if_neg hgt]
  rcases hwl : whereList 0 ((window (effRunLen b.RunLen) b.Value).map CaseUpdateValue.Key)
    with ⟨ws, wv⟩
  refine ⟨"UPDATE " ++ d.quoteIdent b.Table ++ " SET " ++ s
      ++ " WHERE " ++ d.quoteIdent b.PKey ++ " IN (" ++ ws ++ " )", vs ++ wv, ?_⟩
  unfold CaseUpdateStmt.Build
  simp only
  rw [if_neg hT, if_neg hC, hset, hnext, hwl]

theorem exec_drain_general (d : Dialect) : ∀ (N : Nat) (b : CaseUpdateStmt) (n : Nat),
    b.Value.length = N → ValidStmt b → 0 < b.RunLen →
    b.Exec d (fun _ => true) n
      = (n + (N + b.RunLen.toNat - 1) / b.RunLen.toNat, [], none) := by
  intro N
  induction N using Nat.strong_induction_on with
  | _ N ih =>
    intro b n hN hv hpos
    have hK : 0 < b.RunLen.toNat := by omega
    have heff : effRunLen b.RunLen = b.RunLen := effRunLen_of_ne_zero (by omega)
    by_cases hnil : b.Value = []
    · have hN0 : N = 0 := by rw [← hN, hnil]; rfl
      subst hN0
      unfold CaseUpdateStmt.Exec
      rw [dif_pos hnil]
      have h0 : (0 + b.RunLen.toNat - 1) / b.RunLen.toNat = 0 :=
        Nat.div_eq_of_lt (by omega)
      rw [h0]
      simp
    · obtain ⟨sql, vals, hb⟩ := build_ok_of_valid d b hv (by omega)
      rw [heff] at hb
      have hNpos : 0 < N := by
        rw [← hN]
        exact List.length_pos.mpr hnil
      unfold CaseUpdateStmt.Exec
      rw [dif_neg hnil]
      split
      · rename_i heq
        rw [hb] at heq
        cases heq
      · rename_i e heq
        rw [hb] at heq
        cases heq
      · rename_i s' v' b'' heq
        rw [hb] at heq
        injection heq with h1 h2 h3
        subst h3
        simp only [if_true]
        by_cases hgt : (b.Value.length : Int) > b.RunLen
        · have hlt : b.RunLen.toNat < N := by omega
          rw [ih (N - b.RunLen.toNat) (by omega) _ (n + 1)
            (by rw [if_pos hgt]; simp [hN]) ?valid (by simpa using hpos)]
          case valid =>
            obtain ⟨hT, hC, hcols, hvals⟩ := hv
            refine ⟨hT, hC, hcols, ?_⟩
            intro v hvm
            simp only [if_pos hgt] at hvm
            exact hvals v ((List.drop_subset _ _) hvm)
          congr 1
          have e1 : N - b.RunLen.toNat + b.RunLen.toNat - 1 = N - 1 := by omega
          have e2 : N + b.RunLen.toNat - 1 = N - 1 + b.RunLen.toNat := by omega
          rw [e1, e2, Nat.add_div_right _ hK]
          generalize (N - 1) / b.RunLen.toNat = q
          omega
        · rw [ih 0 (by omega) _ (n + 1) (by simp [if_neg hgt]) ?valid2
            (by simpa using hpos)]
          case valid2 =>
            obtain ⟨hT, hC, hcols, hvals⟩ := hv
            refine ⟨hT, hC, hcols, ?_⟩
            intro v hvm
            simp only [if_neg hgt] at hvm
            cases hvm
          congr 1
          have h0 : (0 + b.RunLen.toNat - 1) / b.RunLen.toNat = 0 :=
            Nat.div_eq_of_lt (by omega)
          have e2 : N + b.RunLen.toNat - 1 = N - 1 + b.RunLen.toNat := by omega
          have hle : N - 1 < b.RunLen.toNat := by omega
          rw [h0, e2, Nat.add_div_right _ hK, Nat.div_eq_of_lt hle]

/-! ### Claim theorems -/

/-- Claim C4: for a well-formed statement with N accumulated rows and a
positive batch size K, with every driver execution succeeding, `Exec`
terminates after exactly `ceil(N / K) = (N + K - 1) / K` build-execute
cycles and leaves the row list empty. -/
theorem exec_drains_in_ceil_cycles (d : Dialect) (b : CaseUpdateStmt)
    (hv : ValidStmt b) (hpos : 0 < b.RunLen) :
    b.Exec d (fun _ => true) 0
      = ((b.Value.length + b.RunLen.toNat - 1) / b.RunLen.toNat, [], none) := by
  simpa using exec_drain_general d b.Value.length b 0 rfl hv hpos

/-- Witness for C4, at the spec's own example
`CaseUpdate("t").Columns("id","a").Values(1,"x").Values(2,"y").SetRunLen(1)`:
two rows at batch size 1 drain in exactly two cycles. -/
theorem exec_drains_in_ceil_cycles_witness :
    (((((CaseUpdate "t").Columns "id" ["a"]).Values (.vint 1) [.vstr "x"]).Values
        (.vint 2) [.vstr "y"]).SetRunLen 1).Exec plainDialect (fun _ => true) 0
      = (2, [], none) := by
  have h := exec_drains_in_ceil_cycles plainDialect
    (((((CaseUpdate "t").Columns "id" ["a"]).Values (.vint 1) [.vstr "x"]).Values
        (.vint 2) [.vstr "y"]).SetRunLen 1)
    (by unfold ValidStmt; decide) (by decide)
  exact h

/-- Claim C9: `Build` is not total — with a non-empty table and a
non-empty column list, an empty string among the column names makes
`Build` evaluate the out-of-range index `col[len(col)-1]` and panic
instead of returning an error. -/
theorem build_empty_column_name_crashes :
    ((((CaseUpdate "t").Columns "id" ["a", ""]).Values (.vint 1)
        [.vstr "x", .vstr "y"]).Build plainDialect = .crash)
    ∧ (((CaseUpdate "t").Columns "id" ["a", ""]).Values (.vint 1)
        [.vstr "x", .vstr "y"]).Table ≠ ""
    ∧ (((CaseUpdate "t").Columns "id" ["a", ""]).Values (.vint 1)
        [.vstr "x", .vstr "y"]).Column ≠ [] := by
  refine ⟨?_, ?_, ?_⟩ <;> decide

/-- Claim C10 counterexample: a statement with a negative RunLen on which
`Build` does not panic — an empty table name returns the
table-not-specified error before the slice expression is reached. -/
theorem negative_runlen_no_crash_on_empty_table :
    ((((CaseUpdate "").Columns "id" ["a"]).SetRunLen (-1)).Build plainDialect
      = .err .tableNotSpecified)
    ∧ (((CaseUpdate "").Columns "id" ["a"]).SetRunLen (-1)).RunLen < 0 := by
  refine ⟨?_, ?_⟩ <;> decide

/-- Claim C10 amended: for every statement with a non-empty table, a
non-empty column list and a negative RunLen, `Build` panics — either at a
malformed column, or at the consumed-window slice `Value[RunLen:]`, whose
guard `len(Value) > RunLen && RunLen != 0` always holds for negative
RunLen. -/
theorem build_negative_runlen_crashes (d : Dialect) (b : CaseUpdateStmt)
    (hT : b.Table ≠ "") (hC : b.Column ≠ []) (hneg : b.RunLen < 0) :
    b.Build d = .crash := by
  have heff : effRunLen b.RunLen = b.RunLen := effRunLen_of_ne_zero (by omega)
  have hnext : nextRows b.RunLen b.Value = none := by
    unfold nextRows
    rw [if_pos ⟨by omega, by omega⟩, if_pos hneg]
  unfold CaseUpdateStmt.Build
  simp only
  rw [heff, if_neg hT, if_neg hC, hnext]
  split
  · rfl
  · rfl

/-- Witness for the amended C10: a well-formed statement flipped to
RunLen -1 panics in `Build`. -/
theorem build_negative_runlen_crashes_witness :
    (((CaseUpdate "t").Columns "id" ["a"]).SetRunLen (-1)).Build plainDialect
      = .crash :=
  build_negative_runlen_crashes plainDialect _ (by decide) (by decide) (by decide)

/-- Claim C1, evaluated at the failing input: `Values(1,"x")` then
`Values(1,"y")` leaves TWO entries for key "1" on the statement — the
source overwrites the values of matching entries but appends
unconditionally — and the built statement carries two WHEN-clauses for
key "1" in its single column instead of exactly one. -/
theorem values_duplicate_key_eval :
    ((((CaseUpdate "t").Columns "id" ["a"]).Values (.vint 1) [.vstr "x"]).Values
        (.vint 1) [.vstr "y"]).Value
      = [⟨"1", [.vstr "y"]⟩, ⟨"1", [.vstr "y"]⟩]
    ∧ ((((CaseUpdate "t").Columns "id" ["a"]).Values (.vint 1) [.vstr "x"]).Values
        (.vint 1) [.vstr "y"]).Build plainDialect
      = .ok "UPDATE t SET a =  CASE id WHEN ? THEN ?  WHEN ? THEN ?  END  WHERE id IN ( ? ,  ?  )"
          [.vstr "1", .vstr "y", .vstr "1", .vstr "y", .vstr "1", .vstr "1"]
          { Table := "t", PKey := "id", RunLen := 1000, Column := ["a"], Value := [] } := by
  refine ⟨?_, ?_⟩ <;> decide

/-- Claim C2 amended: `Build` treats RunLen 0 (the value of a statement
on which `SetRunLen` was never called) exactly as RunLen 1000 — the
defaulting at the top of `Build` normalizes 0 to 1000 before any
windowing, so RunLen 0 yields a 1000-row window, not an unbounded one. -/
theorem build_runlen_zero_equals_1000 (d : Dialect) (b : CaseUpdateStmt)
    (h : b.RunLen = 0) :
    b.Build d = CaseUpdateStmt.Build { b with RunLen := 1000 } d := by
  unfold CaseUpdateStmt.Build
  simp [effRunLen, h]

/-- Witness for the amended C2: a freshly assembled statement (RunLen
still 0) builds exactly as the same statement with RunLen 1000. -/
theorem build_runlen_zero_equals_1000_witness :
    ((CaseUpdate "t").Columns "id" ["a"]).Build plainDialect
      = CaseUpdateStmt.Build { (CaseUpdate "t").Columns "id" ["a"] with RunLen := 1000 }
          plainDialect :=
  build_runlen_zero_equals_1000 plainDialect _ rfl

/-- Claim C2 counterexample: with RunLen 0 and 1001 accumulated rows,
`Build` consumes a window of only 1000 rows and leaves one row behind —
not one unbounded window covering all remaining rows. -/
theorem runlen_zero_not_unbounded :
    unboundedProbe.RunLen = 0
    ∧ (unboundedProbe.Build plainDialect).rest = some [⟨"k", [.vstr "v"]⟩]
    ∧ (unboundedProbe.Build plainDialect).rest ≠ some [] := by
  have hvalid : ValidStmt unboundedProbe := by
    refine ⟨by decide, by decide, by decide, ?_⟩
    intro v hv
    have hveq := List.eq_of_mem_replicate hv
    subst hveq
    decide
  obtain ⟨sql, vals, hb⟩ := build_ok_of_valid plainDialect unboundedProbe hvalid (by decide)
  have h2 : (unboundedProbe.Build plainDialect).rest = some [⟨"k", [.vstr "v"]⟩] := by
    rw [hb]
    simp only [BuildResult.rest]
    norm_num [unboundedProbe, effRunLen, List.drop_replicate]
    decide
  exact ⟨rfl, h2, by rw [h2]; decide⟩

/-- Claim C5: `Build`'s per-column rendering — a column name whose last
character is `+` renders as `col = col + CASE ... END` and one ending in
`-` as `col = col - CASE ... END`, with the suffix stripped from the
rendered identifier, while a name with any other last character renders
as plain `col = CASE ... END`. -/
theorem column_suffix_rendering (d : Dialect) (pkey : String)
    (win : List CaseUpdateValue) (i : Nat) (col : String) (w : String)
    (vs : List GoVal) (hw : whenParts i win = some (w, vs)) :
    (strLast col = some '+' →
      colSegment d pkey win i col
        = some (d.quoteIdent (strInit col) ++ " = " ++ d.quoteIdent (strInit col)
            ++ " + " ++ " CASE " ++ d.quoteIdent pkey ++ w ++ " END ", vs))
    ∧ (strLast col = some '-' →
      colSegment d pkey win i col
        = some (d.quoteIdent (strInit col) ++ " = " ++ d.quoteIdent (strInit col)
            ++ " - " ++ " CASE " ++ d.quoteIdent pkey ++ w ++ " END ", vs))
    ∧ (∀ c, strLast col = some c → c ≠ '+' → c ≠ '-' →
      colSegment d pkey win i col
        = some (d.quoteIdent col ++ " = " ++ " CASE " ++ d.quoteIdent pkey
            ++ w ++ " END ", vs)) := by
  refine ⟨?_, ?_, ?_⟩
  · intro hc
    unfold colSegment
    rw [hc]
    simp only [hw]
    rw [if_pos (Or.inl trivial)]
    rfl
  · intro hc
    unfold colSegment
    rw [hc]
    simp only [hw]
    rw [if_pos (Or.inr trivial)]
    rfl
  · intro c hc h1 h2
    unfold colSegment
    rw [hc]
    simp only [hw]
    rw [if_neg (by simp [h1, h2])]

/-- Witness for C5 at a one-row window under the verbatim dialect:
`a+`, `a-` and `a` render as delta-plus, delta-minus and plain
replacement. -/
theorem column_suffix_rendering_witness :
    colSegment plainDialect "id" [⟨"1", [.vstr "x"]⟩] 0 "a+"
      = some ("a = a +  CASE id WHEN ? THEN ?  END ", [.vstr "1", .vstr "x"])
    ∧ colSegment plainDialect "id" [⟨"1", [.vstr "x"]⟩] 0 "a-"
      = some ("a = a -  CASE id WHEN ? THEN ?  END ", [.vstr "1", .vstr "x"])
    ∧ colSegment plainDialect "id" [⟨"1", [.vstr "x"]⟩] 0 "a"
      = some ("a =  CASE id WHEN ? THEN ?  END ", [.vstr "1", .vstr "x"]) := by
  refine ⟨?_, ?_, ?_⟩
  · exact (column_suffix_rendering plainDialect "id" [⟨"1", [.vstr "x"]⟩] 0 "a+"
      " WHEN ? THEN ? " [.vstr "1", .vstr "x"] (by decide)).1 (by decide)
  · exact (column_suffix_rendering plainDialect "id" [⟨"1", [.vstr "x"]⟩] 0 "a-"
      " WHEN ? THEN ? " [.vstr "1", .vstr "x"] (by decide)).2.1 (by decide)
  · exact (column_suffix_rendering plainDialect "id" [⟨"1", [.vstr "x"]⟩] 0 "a"
      " WHEN ? THEN ? " [.vstr "1", .vstr "x"] (by decide)).2.2 'a' (by decide)
      (by decide) (by decide)

/-- Function `queryDb` never reads the `cacheGet` field: the database path is the
same whatever the cache read answered. -/
theorem queryDb_cacheGet_irrel {c : Custom} {r : Bool} {i : Except Unit String}
    {g g' : CacheGetReply} {dC : Bytes → Option Int} {dD : Bytes → Bool}
    {dV : Bool} {dS : Option Nat} {dbC dbL : Except Unit Int}
    {eC : Int → Option Bytes} {eD : Option Bytes} :
    queryDb ⟨i, g, dC, dD, dV, dS, dbC, dbL, eC, eD⟩ c r
      = queryDb ⟨i, g', dC, dD, dV, dS, dbC, dbL, eC, eD⟩ c r := rfl

/-- Claim C3: with caching enabled, a cache backend error on `GetBytes`
or a gob decode failure of the hit bytes is never the call's result —
`query` behaves exactly as if the cache had missed, falling through to
the real database query. -/
theorem cache_read_failure_degrades_to_miss (env : QueryEnv) (c : Custom)
    (h : env.cacheGet = .backendErr
      ∨ ∃ bs, env.cacheGet = .hit bs
          ∧ (if c.isCount then env.decodeCount bs = none
             else env.decodeDestOk bs = false)) :
    query env c = query { env with cacheGet := .miss } c := by
  obtain ⟨i, g, dC, dD, dV, dS, dbC, dbL, eC, eD⟩ := env
  simp only at h
  unfold query
  by_cases hc : c.isCache = true
  case neg =>
    simp only [if_neg hc]
    exact queryDb_cacheGet_irrel
  case pos =>
    simp only [if_pos hc]
    cases i with
    | error e => rfl
    | ok s =>
      simp only
      by_cases hk : c.cacheKey = ""
      · simp only [if_pos hk]
      · simp only [if_neg hk]
        rcases h with hg | ⟨bs, hg, hdec⟩
        · subst hg
          exact queryDb_cacheGet_irrel
        · subst hg
          by_cases hcount : c.isCount = true
          · rw [if_pos hcount] at hdec
            simp only [if_pos hcount, hdec]
            exact queryDb_cacheGet_irrel
          · rw [if_neg hcount] at hdec
            simp only [if_neg hcount, hdec, Bool.false_eq_true, if_false]
            exact queryDb_cacheGet_irrel

/-- Witness for C3: under a cache whose `GetBytes` reports a backend
error, `query` returns exactly what it returns on a clean miss. -/
theorem cache_read_failure_degrades_to_miss_witness :
    query envA customCount = query { envA with cacheGet := .miss } customCount :=
  cache_read_failure_degrades_to_miss envA customCount (Or.inl rfl)

/-- Claim C6: with caching enabled, a row count wanted and a cache miss,
the database sees the count-wrapped SQL
`SELECT COUNT(*) FROM (<sql>) AS count`, the scanned integer is
gob-encoded and stored under the directive's key and TTL (or not stored
at all if encoding fails), and the count is returned. -/
theorem count_query_on_cache_miss (env : QueryEnv) (c : Custom) (sql : String)
    (cnt : Int) (hcache : c.isCache = true) (hcount : c.isCount = true)
    (hkey : c.cacheKey ≠ "") (hint : env.interp = .ok sql)
    (hmiss : env.cacheGet = .miss) (hdb : env.dbCount = .ok cnt) :
    query env c
      = ⟨.ok cnt, true, some (countWrap sql),
          (env.encodeCount cnt).map fun bs => (c.cacheKey, bs, c.cacheExpire)⟩ := by
  unfold query queryDb
  simp [hcache, hcount, hkey, hint, hmiss, hdb]

/-- Witness for C6: on a miss the call returns the database's count 7,
executes the wrapped SQL, and stores the encoded count under key "k"
with TTL 60. -/
theorem count_query_on_cache_miss_witness :
    query { envA with cacheGet := .miss } customCount
      = ⟨.ok 7, true, some "SELECT COUNT(*) FROM (SELECT a FROM t) AS count",
          some ("k", [7], 60)⟩ := by
  have h := count_query_on_cache_miss { envA with cacheGet := .miss } customCount
    "SELECT a FROM t" 7 rfl rfl (by decide) rfl rfl rfl
  exact h

/-- Claim C7: in `exec`, when the driver call succeeds and the directive
is enabled with a non-empty key, that cache key is deleted, and whatever
the deletion answers — including failure — the call still returns the
successful driver result with no error. -/
theorem exec_success_deletes_cache_key (env : ExecEnv) (c : Custom) (sql : String)
    (r : Int) (hint : env.interp = .ok sql) (hdb : env.dbExec = .ok r)
    (hcache : c.isCache = true) (hkey : c.cacheKey ≠ "") :
    ∀ delRes : Except Unit Unit,
      exec { env with cacheDel := delRes } c = ⟨.ok r, some c.cacheKey⟩ := by
  intro delRes
  unfold exec
  simp [hint, hdb, hcache, hkey]

/-- Witness for C7: with a failing cache deletion the call still returns
the driver's result and deletes key "k". -/
theorem exec_success_deletes_cache_key_witness :
    exec { envE with cacheDel := .error () } customCount = ⟨.ok 1, some "k"⟩ :=
  exec_success_deletes_cache_key envE customCount "UPDATE t" 1 rfl rfl rfl
    (by decide) (.error ())

/-- Claim C8: with caching enabled, an empty cache key makes `query`
return the missing-cache-key configuration error without attempting a
cache read or any database query. -/
theorem empty_cache_key_fails_fast (env : QueryEnv) (c : Custom) (sql : String)
    (hcache : c.isCache = true) (hkey : c.cacheKey = "")
    (hint : env.interp = .ok sql) :
    query env c = ⟨.error .missingCacheKey, false, none, none⟩ := by
  unfold query
  simp [hcache, hkey, hint]

/-- Witness for C8: the count directive with its key blanked out fails
with the missing-cache-key error, reading nothing and querying nothing. -/
theorem empty_cache_key_fails_fast_witness :
    query envA { customCount with cacheKey := "" }
      = ⟨.error .missingCacheKey, false, none, none⟩ :=
  empty_cache_key_fails_fast envA { customCount with cacheKey := "" }
    "SELECT a FROM t" rfl rfl rfl
